import Mathlib

set_option maxRecDepth 100000

/-
Verification of the query-routing and context-assembly pipeline of the
Snowflake-Data-Platform intelligent-search chatbot
(src/snowflake-data-platform-intelligent-search.py).

The script is embedded shallowly:
* Streamlit session state (`st.session_state`) becomes the `SessionState`
  record; mutation becomes explicit state passing.
* The external platform (Cortex search services, the completion service and
  the SQL metadata queries) becomes an `Oracles` record of pure functions;
  a call that may fail at the network level returns `Option`.
* Every call to an external service is recorded in a `Call` trace so that
  theorems can speak about which services a pipeline stage invoked and with
  which arguments.
* A Python exception becomes an `Except PErr` result; state mutations that
  happened before the raise survive, exactly as they do in Python.
-/

namespace SDP

/-- A chat message, `{"role": ..., "content": ...}` in the script. -/
structure Message where
  role : String
  content : String
deriving DecidableEq, Repr

/-- One entry of `st.session_state.service_metadata`:
`{"name": svc_name, "search_column": svc_search_col}`. -/
structure ServiceDescriptor where
  name : String
  search_column : String
deriving DecidableEq, Repr

/-- The Streamlit session state fields read or written by the script.
`messagesPresent` models whether the key `"messages"` is present
(`"messages" not in st.session_state`); `service_metadata = none` models the
key `"service_metadata"` being absent. -/
structure SessionState where
  messagesPresent : Bool
  messages : List Message
  clear_conversation : Bool
  debug : Bool
  use_chat_history : Bool
  model_name : String
  num_retrieved_chunks : Nat
  num_chat_messages : Nat
  service_metadata : Option (List ServiceDescriptor)
  selected_cortex_search_service : Option String

/-- One call made to an external collaborator during a pipeline stage. -/
inductive Call where
  | sqlShow : Call
  | sqlDesc : String → Call
  | search : String → String → Nat → Call
  | complete : String → String → Call
deriving DecidableEq, Repr

/-- A Python exception raised during a turn. -/
inductive PErr where
  | backendUnavailable : PErr
  | keyMissing : String → PErr
  | valueError : String → PErr
deriving DecidableEq, Repr

/-- The external world: the Cortex search platform and the completion
service.  `none` models a raised exception (network/platform failure).
A search result row is modelled as a field-name-to-text map, mirroring
`r[search_col]`. -/
structure Oracles where
  complete : String → String → Option String
  search : String → String → Nat → Option (List (String → String))
  showServices : Option (List String)
  descService : String → Option String

/-- `MODELS` list of the script. -/
def MODELS : List String := ["mistral-large", "llama3-70b", "llama3-8b"]

/-- `STRUCTURED_KEYWORDS` list of the script, verbatim. -/
def STRUCTURED_KEYWORDS : List String :=
  ["nasdaq traded", "symbol", "security name", "listing exchange",
   "market category", "etf", "round lot size", "test issue",
   "financial status", "cqs symbol", "nasdaq symbol", "nextshares"]

/-- `STRUCTURED_SERVICE` constant of the script. -/
def STRUCTURED_SERVICE : String := "stock_market_service"

/-- `UNSTRUCTURED_SERVICE` constant of the script. -/
def UNSTRUCTURED_SERVICE : String := "prospectus_service"

/-- Byte-free model of Python `str.lower()` (`String.toLower` of the
library does not reduce in the kernel, so the char-list map is used;
identical on the ASCII text the script manipulates). -/
def pyLower (s : String) : String := ⟨s.data.map Char.toLower⟩

/-- Executable prefix test on char lists. -/
def isPref : List Char → List Char → Bool
  | [], _ => true
  | _ :: _, [] => false
  | a :: as, b :: bs => a == b && isPref as bs

/-- Executable substring test on char lists; models the Python
`needle in haystack` membership test on strings. -/
def listContains (pat : List Char) : List Char → Bool
  | [] => pat.isEmpty
  | b :: bs => isPref pat (b :: bs) || listContains pat bs

/-- Python `keyword in prompt_lower`. -/
def strIn (needle hay : String) : Bool := listContains needle.data hay.data

/-- The `for keyword in STRUCTURED_KEYWORDS` loop of `classify_prompt`:
first keyword that is a substring wins, no match falls through to
`"unstructured"`. -/
def classifyLoop : List String → String → String
  | [], _ => "unstructured"
  | keyword :: rest, prompt_lower =>
      if strIn keyword prompt_lower then "structured"
      else classifyLoop rest prompt_lower

/-- `classify_prompt` of the script. -/
def classify_prompt (prompt : String) : String :=
  classifyLoop STRUCTURED_KEYWORDS (pyLower prompt)

/-- Number of occurrences (all start positions counted) of `pat` in a char
list; the formal reading of "contains exactly one … section". -/
def countOccs (pat : List Char) : List Char → Nat
  | [] => if pat.isEmpty then 1 else 0
  | b :: bs => (if isPref pat (b :: bs) then 1 else 0) + countOccs pat bs

/-- `init_messages` of the script: reset the log when the clear button was
pressed or the `"messages"` key is absent. -/
def init_messages (st : SessionState) : SessionState :=
  if st.clear_conversation || !st.messagesPresent then
    { st with messages := [], messagesPresent := true }
  else st

/-- The `for s in services` body of `init_service_metadata`: one
`DESC CORTEX SEARCH SERVICE` call per discovered service, building the list
of descriptors in discovery order; a platform failure raises. -/
def descAll (o : Oracles) : List String → List Call × Except PErr (List ServiceDescriptor)
  | [] => ([], Except.ok [])
  | svc_name :: rest =>
      match o.descService svc_name with
      | none => ([Call.sqlDesc svc_name], Except.error PErr.backendUnavailable)
      | some svc_search_col =>
          match descAll o rest with
          | (calls, Except.error e) => (Call.sqlDesc svc_name :: calls, Except.error e)
          | (calls, Except.ok tail) =>
              (Call.sqlDesc svc_name :: calls,
               Except.ok ({ name := svc_name, search_column := svc_search_col } :: tail))

/-- The discovery sequence of `init_service_metadata`:
`SHOW CORTEX SEARCH SERVICES` followed by one `DESC` per discovered
service. -/
def discoverAll (o : Oracles) : List Call × Except PErr (List ServiceDescriptor) :=
  match o.showServices with
  | none => ([Call.sqlShow], Except.error PErr.backendUnavailable)
  | some services =>
      match descAll o services with
      | (calls, Except.error e) => (Call.sqlShow :: calls, Except.error e)
      | (calls, Except.ok service_metadata) => (Call.sqlShow :: calls, Except.ok service_metadata)

/-- `init_service_metadata` of the script: lazily run the discovery sequence
unless the `"service_metadata"` key is already populated; a platform failure
mid-discovery propagates, leaving the key unset. -/
def init_service_metadata (st : SessionState) (o : Oracles) :
    SessionState × List Call × Except PErr Unit :=
  match st.service_metadata with
  | some _ => (st, [], Except.ok ())
  | none =>
      match discoverAll o with
      | (calls, Except.error e) => (st, calls, Except.error e)
      | (calls, Except.ok service_metadata) =>
          ({ st with service_metadata := some service_metadata },
           calls, Except.ok ())

/-- String concatenation of a list (the `+=` loop). -/
def concatAll : List String → String
  | [] => ""
  | x :: xs => x ++ concatAll xs

/-- The `context_str` accumulation loop of `query_cortex_search_service`:
`"Context document {i+1}: {r[search_col]}\n\n"` per result row. -/
def buildContext (results : List (String → String)) (search_col : String) : String :=
  concatAll ((results.enum).map
    (fun ir => "Context document " ++ toString (ir.1 + 1) ++ ": " ++
               ir.2 search_col ++ "\n\n"))

/-- The body of `query_cortex_search_service` after the platform search call:
look the selected service up in `st.session_state.service_metadata`
case-insensitively, raise the `ValueError` when absent, otherwise render the
retrieved rows.  The platform search happens first, exactly as in the
script. -/
def qcssResult (st : SessionState) (o : Oracles) (query service_name : String) :
    Except PErr String :=
  match o.search service_name query st.num_retrieved_chunks with
  | none => Except.error PErr.backendUnavailable
  | some results =>
      match st.service_metadata with
      | none => Except.error (PErr.keyMissing "service_metadata")
      | some service_metadata =>
          match (service_metadata.filter
                  (fun s => pyLower s.name == pyLower service_name)).map
                  (fun s => s.search_column) with
          | [] => Except.error (PErr.valueError
                    ("Search service '" ++ service_name ++ "' not found in service metadata."))
          | search_col :: _ => Except.ok (buildContext results search_col)

/-- `query_cortex_search_service` of the script: classify the query, select
the backend, record the selection in session state, search, and render the
context string (or raise). -/
def query_cortex_search_service (st : SessionState) (o : Oracles) (query : String) :
    SessionState × List Call × Except PErr String :=
  let service_name :=
    if classify_prompt query = "structured" then STRUCTURED_SERVICE else UNSTRUCTURED_SERVICE
  ({ st with selected_cortex_search_service := some service_name },
   [Call.search service_name query st.num_retrieved_chunks],
   qcssResult st o query service_name)

/-- `get_chat_history` of the script:
`messages[max(0, len - num_chat_messages) : len - 1]`. -/
def get_chat_history (st : SessionState) : List Message :=
  let start_index := max 0 (st.messages.length - st.num_chat_messages)
  (st.messages.take (st.messages.length - 1)).drop start_index

/-- `complete` of the script: one call to
`snowflake.cortex.complete(model, prompt)`. -/
def complete (o : Oracles) (model prompt : String) : List Call × Except PErr String :=
  match o.complete model prompt with
  | none => ([Call.complete model prompt], Except.error PErr.backendUnavailable)
  | some r => ([Call.complete model prompt], Except.ok r)

/-- Python `str()` of one message dict as interpolated into the f-strings
(exact for contents free of quotes and backslashes, which is the only way
the rendering is used by the theorems below). -/
def reprMessage (m : Message) : String :=
  "\x7b'role': '" ++ m.role ++ "', 'content': '" ++ m.content ++ "'\x7d"

/-- Comma-separated join, as in Python's list rendering. -/
def joinSep (sep : String) : List String → String
  | [] => ""
  | [x] => x
  | x :: y :: xs => x ++ sep ++ joinSep sep (y :: xs)

/-- Python `str()` of the message list interpolated by the f-strings. -/
def reprMessages (ms : List Message) : String :=
  "[" ++ joinSep ", " (ms.map reprMessage) ++ "]"

/-- Fixed prefix of the summariser f-string of `make_chat_history_summary`,
up to the `{chat_history}` slot. -/
def sumPartA : String :=
  "\n        [INST]\n        Based on the chat history below and the question, generate a query that extend the question\n        with the chat history provided. The query should be in natural language.\n        Answer with only the query. Do not add any explanation.\n\n        <chat_history>\n        "

/-- Fixed middle of the summariser f-string, between the `{chat_history}`
and `{question}` slots. -/
def sumPartB : String :=
  "\n        </chat_history>\n        <question>\n        "

/-- Fixed suffix of the summariser f-string, after the `{question}` slot. -/
def sumPartC : String :=
  "\n        </question>\n        [/INST]\n    "

/-- The summariser prompt of `make_chat_history_summary` as a function of
the two interpolated slots. -/
def summaryTemplate (chat_history question : String) : String :=
  sumPartA ++ chat_history ++ sumPartB ++ question ++ sumPartC

/-- `make_chat_history_summary` of the script (minus the debug sidebar
write, which is pure UI). -/
def make_chat_history_summary (st : SessionState) (o : Oracles)
    (chat_history : List Message) (question : String) : List Call × Except PErr String :=
  complete o st.model_name (summaryTemplate (reprMessages chat_history) question)

/-- Fixed prefix of the final-prompt f-string of `create_prompt`, up to the
`{chat_history}` slot. -/
def promptPartA : String :=
  "\n        [INST]\n        You are a helpful AI chat assistant with RAG capabilities. When a user asks you a question,\n        you will also be given context provided between <context> and </context> tags. Use that context\n        with the user's chat history provided in the between <chat_history> and </chat_history> tags\n        to provide a summary that addresses the user's question. Ensure the answer is coherent, concise,\n        and directly relevant to the user's question.\n\n        If the user asks a generic question which cannot be answered with the given context or chat_history,\n        just say \"I don't know the answer to that question.\"\n\n        Don't say things like \"according to the provided context\".\n\n        <chat_history>\n        "

/-- Fixed part of the final-prompt f-string between the `{chat_history}` and
`{prompt_context}` slots. -/
def promptPartB : String :=
  "\n        </chat_history>\n        <context>\n        "

/-- Fixed part of the final-prompt f-string between the `{prompt_context}`
and `{user_question}` slots. -/
def promptPartC : String :=
  "\n        </context>\n        <question>\n        "

/-- Fixed suffix of the final-prompt f-string after the `{user_question}`
slot. -/
def promptPartD : String :=
  "\n        </question>\n        [/INST]\n        Answer:\n    "

/-- The fixed fallback directive sentence the spec requires verbatim. -/
def fallbackSentence : String := "I don't know the answer to that question."

/-- The template's directive to answer only from the given context and chat
history, falling back to the fixed sentence otherwise (verbatim, with the
template's own line break and indentation). -/
def answerFromContextDirective : String :=
  "If the user asks a generic question which cannot be answered with the given context or chat_history,\n        just say \"I don't know the answer to that question.\""

/-- The template's directive never to mention the context mechanism
explicitly (verbatim). -/
def noMechanismMention : String :=
  "Don't say things like \"according to the provided context\"."

/-- The final prompt of `create_prompt` as a function of the three
interpolated slots. -/
def promptTemplate (chat_history prompt_context user_question : String) : String :=
  promptPartA ++ chat_history ++ promptPartB ++ prompt_context ++ promptPartC ++
    user_question ++ promptPartD

/-- `create_prompt` of the script: decide whether to rewrite the question
through the summariser, retrieve context, and build the final prompt.  The
`{chat_history}` slot receives the Python rendering of the history list in
the history-enabled branches and the empty string otherwise, exactly as in
the script. -/
def create_prompt (st : SessionState) (o : Oracles) (user_question : String) :
    SessionState × List Call × Except PErr String :=
  if st.use_chat_history then
    let chat_history := get_chat_history st
    if chat_history ≠ [] then
      match make_chat_history_summary st o chat_history user_question with
      | (calls1, Except.error e) => (st, calls1, Except.error e)
      | (calls1, Except.ok question_summary) =>
          let (st2, calls2, r2) := query_cortex_search_service st o question_summary
          (st2, calls1 ++ calls2,
           r2.map (fun prompt_context =>
             promptTemplate (reprMessages chat_history) prompt_context user_question))
    else
      let (st2, calls2, r2) := query_cortex_search_service st o user_question
      (st2, calls2,
       r2.map (fun prompt_context =>
         promptTemplate (reprMessages chat_history) prompt_context user_question))
  else
    let (st2, calls2, r2) := query_cortex_search_service st o user_question
    (st2, calls2,
     r2.map (fun prompt_context => promptTemplate "" prompt_context user_question))

/-- Python `question.replace("'", "")` (`Char.ofNat 39` is the apostrophe). -/
def removeApostrophes (s : String) : String :=
  ⟨s.data.filter (fun c => c != Char.ofNat 39)⟩

/-- The body of the `if question := st.chat_input(...)` block of `main`:
append the user message to the log, strip apostrophes from the question,
run `create_prompt` and the final completion, and append the assistant
reply; an exception anywhere propagates, leaving the mutations already made
in place, exactly as in the script. -/
def handleQuestion (st : SessionState) (o : Oracles) (question : String) :
    SessionState × List Call × Except PErr String :=
  let st1 := { st with messages := st.messages ++ [Message.mk "user" question] }
  let question2 := removeApostrophes question
  let res1 := create_prompt st1 o question2
  let st2 := res1.1
  let calls1 := res1.2.1
  match res1.2.2 with
  | Except.error e => (st2, calls1, Except.error e)
  | Except.ok prompt =>
      let res2 := complete o st2.model_name prompt
      match res2.2 with
      | Except.error e => (st2, calls1 ++ res2.1, Except.error e)
      | Except.ok generated_response =>
          ({ st2 with messages := st2.messages ++ [Message.mk "assistant" generated_response] },
           calls1 ++ res2.1, Except.ok generated_response)

/-- A concrete reachable session state used by witnesses: defaults of
`init_config_options` (`model_name` the first entry of `MODELS`, five
retrieved chunks, five history messages, history on, debug off) and a
discovered descriptor for the unstructured backend. -/
def baseState : SessionState :=
  { messagesPresent := true
    messages := []
    clear_conversation := false
    debug := false
    use_chat_history := true
    model_name := "mistral-large"
    num_retrieved_chunks := 5
    num_chat_messages := 5
    service_metadata := some [{ name := "prospectus_service", search_column := "chunk" }]
    selected_cortex_search_service := none }

/-- `baseState` with chat history disabled. -/
def stNoHist : SessionState := { baseState with use_chat_history := false }

/-- `baseState` with one completed prior turn already in the log. -/
def stHist : SessionState :=
  { baseState with messages := [Message.mk "user" "u1", Message.mk "assistant" "a1"] }

/-- An external world in which every platform call succeeds. -/
def okOracle : Oracles :=
  { complete := fun _ _ => some "a generated answer"
    search := fun _ _ _ => some []
    showServices := some []
    descService := fun _ => some "chunk" }

/-- An external world in which the completion service is down. -/
def failOracle : Oracles := { okOracle with complete := fun _ _ => none }

lemma isPref_iff (p : List Char) : ∀ s : List Char, isPref p s = true ↔ p <+: s := by
  induction p with
  | nil => intro s; simp [isPref]
  | cons a as ih =>
      intro s
      cases s with
      | nil =>
          simp only [isPref, Bool.false_eq_true, false_iff]
          intro h
          simpa using h.length_le
      | cons b bs =>
          simp [isPref, List.cons_prefix_cons, ih bs, Bool.and_eq_true, beq_iff_eq]

lemma listContains_iff (p : List Char) : ∀ s : List Char,
    listContains p s = true ↔ p <:+: s := by
  intro s
  induction s with
  | nil =>
      simp only [listContains, List.isEmpty_iff]
      constructor
      · rintro rfl; exact List.infix_rfl
      · intro h; simpa using h.length_le
  | cons b bs ih =>
      simp [listContains, List.infix_cons_iff, isPref_iff, ih, Bool.or_eq_true]

lemma classifyLoop_characterisation (pl : String) : ∀ ks : List String,
    (classifyLoop ks pl = "structured" ∨ classifyLoop ks pl = "unstructured") ∧
    (classifyLoop ks pl = "structured" ↔ ∃ k ∈ ks, k.data <:+: pl.data) := by
  intro ks
  induction ks with
  | nil => simp [classifyLoop]
  | cons k rest ih =>
      by_cases h : strIn k pl
      · refine ⟨Or.inl ?_, ?_⟩
        · simp [classifyLoop, h]
        · simp only [classifyLoop, h, if_true]
          constructor
          · intro _
            exact ⟨k, List.mem_cons_self k rest, (listContains_iff _ _).mp h⟩
          · intro _; trivial
      · have hrw : classifyLoop (k :: rest) pl = classifyLoop rest pl := by
          simp [classifyLoop, h]
        refine ⟨hrw ▸ ih.1, ?_⟩
        rw [hrw, ih.2]
        constructor
        · rintro ⟨k', hk', hinf⟩; exact ⟨k', List.mem_cons_of_mem _ hk', hinf⟩
        · rintro ⟨k', hk', hinf⟩
          rcases List.mem_cons.mp hk' with rfl | hk'
          · exact absurd ((listContains_iff _ _).mpr hinf) (by simpa [strIn] using h)
          · exact ⟨k', hk', hinf⟩

/-- C2: `classify_prompt` is total with range `{"structured", "unstructured"}`;
it returns `"structured"` exactly when some keyword of
`STRUCTURED_KEYWORDS` occurs as a substring of the lowercased query, and the
empty query classifies as `"unstructured"`. -/
theorem classify_prompt_characterisation (q : String) :
    (classify_prompt q = "structured" ∨ classify_prompt q = "unstructured") ∧
    (classify_prompt q = "structured" ↔
      ∃ k ∈ STRUCTURED_KEYWORDS, k.data <:+: (pyLower q).data) ∧
    classify_prompt "" = "unstructured" := by
  obtain ⟨h1, h2⟩ := classifyLoop_characterisation (pyLower q) STRUCTURED_KEYWORDS
  exact ⟨h1, h2, by decide⟩

lemma countOccs_cons (pat : List Char) (b : Char) (bs : List Char) :
    countOccs pat (b :: bs) = (if isPref pat (b :: bs) then 1 else 0) + countOccs pat bs := rfl

lemma countOccs_nil_of_ne (pat : List Char) (hp : pat ≠ []) : countOccs pat [] = 0 := by
  cases pat with
  | nil => cases hp rfl
  | cons a as => simp [countOccs]

lemma mem_of_last : ∀ {l : List Char} {c : Char}, l.getLast? = some c → c ∈ l := by
  intro l
  induction l with
  | nil => intro c h; simp at h
  | cons a w ih =>
      intro c h
      cases w with
      | nil => simp_all
      | cons b w' =>
          rw [List.getLast?_cons_cons] at h
          exact List.mem_cons_of_mem _ (ih h)

lemma pref_split : ∀ (u p v : List Char), p <+: u ++ v → p <+: u ∨ u <+: p := by
  intro u
  induction u with
  | nil => intro p v _; right; exact ⟨p, rfl⟩
  | cons a w ih =>
      intro p v h
      cases p with
      | nil => left; exact ⟨a :: w, rfl⟩
      | cons b q =>
          rw [List.cons_append, List.cons_prefix_cons] at h
          obtain ⟨rfl, hq⟩ := h
          rcases ih q v hq with h1 | h1
          · left; exact List.cons_prefix_cons.mpr ⟨rfl, h1⟩
          · right; exact List.cons_prefix_cons.mpr ⟨rfl, h1⟩

lemma isPref_append_eq (pat u v : List Char) (hu : u ≠ [])
    (hlast : ∀ c, u.getLast? = some c → c ∉ pat) :
    isPref pat (u ++ v) = isPref pat u := by
  cases hiv : isPref pat u with
  | true =>
      have hpref : pat <+: u := (isPref_iff _ _).mp hiv
      exact (isPref_iff _ _).mpr (hpref.trans ⟨v, rfl⟩)
  | false =>
      cases hiv2 : isPref pat (u ++ v) with
      | false => rfl
      | true =>
          exfalso
          have hpref : pat <+: u ++ v := (isPref_iff _ _).mp hiv2
          rcases pref_split u pat v hpref with h1 | h1
          · have := (isPref_iff _ _).mpr h1
            rw [hiv] at this
            exact Bool.noConfusion this
          · have hcne : u.getLast? = some (u.getLast hu) := List.getLast?_eq_getLast u hu
            exact hlast _ hcne (h1.subset (List.getLast_mem hu))

lemma countOccs_append_left (pat : List Char) (hp : pat ≠ []) :
    ∀ (u v : List Char), u ≠ [] → (∀ c, u.getLast? = some c → c ∉ pat) →
      countOccs pat (u ++ v) = countOccs pat u + countOccs pat v := by
  intro u
  induction u with
  | nil => intro v h _; cases h rfl
  | cons a w ih =>
      intro v _ hlast
      have hne2 : isPref pat ((a :: w) ++ v) = isPref pat (a :: w) :=
        isPref_append_eq pat (a :: w) v (by simp) hlast
      cases w with
      | nil =>
          rw [List.cons_append, List.nil_append] at hne2 ⊢
          rw [countOccs_cons pat a v, hne2,
              countOccs_cons pat a [], countOccs_nil_of_ne pat hp]
          omega
      | cons b w' =>
          have hlast' : ∀ c, (b :: w').getLast? = some c → c ∉ pat := by
            intro c hc
            exact hlast c (by rw [List.getLast?_cons_cons]; exact hc)
          have ihh := ih v (by simp) hlast'
          rw [List.cons_append] at hne2 ⊢
          rw [countOccs_cons pat a ((b :: w') ++ v), hne2, ihh,
              countOccs_cons pat a (b :: w')]
          omega

lemma countOccs_append_skip (c0 : Char) (pt : List Char) :
    ∀ (u v : List Char), c0 ∉ u → countOccs (c0 :: pt) (u ++ v) = countOccs (c0 :: pt) v := by
  intro u
  induction u with
  | nil => intro v _; rw [List.nil_append]
  | cons a w ih =>
      intro v hmem
      have hane : (c0 == a) = false := by
        have hne : c0 ≠ a := fun h => hmem (h ▸ List.mem_cons_self a w)
        exact beq_eq_false_iff_ne.mpr hne
      have hpf : isPref (c0 :: pt) (a :: (w ++ v)) = false := by
        simp [isPref, hane]
      have hmem' : c0 ∉ w := fun h => hmem (List.mem_cons_of_mem _ h)
      rw [List.cons_append, countOccs_cons, hpf, ih v hmem']
      simp

lemma countOccs_prompt_parts (pt : List Char) (hsp : (' ' : Char) ∉ ('<' :: pt))
    (h c q : String) (hh : ('<' : Char) ∉ h.data) (hc : ('<' : Char) ∉ c.data)
    (hq : ('<' : Char) ∉ q.data) :
    countOccs ('<' :: pt) (promptTemplate h c q).data =
      countOccs ('<' :: pt) promptPartA.data + countOccs ('<' :: pt) promptPartB.data +
      countOccs ('<' :: pt) promptPartC.data + countOccs ('<' :: pt) promptPartD.data := by
  have hp : ('<' :: pt) ≠ [] := by simp
  have hdata : (promptTemplate h c q).data =
      promptPartA.data ++ (h.data ++ (promptPartB.data ++ (c.data ++
        (promptPartC.data ++ (q.data ++ promptPartD.data))))) := by
    simp [promptTemplate, String.data_append, List.append_assoc]
  have hlastA : ∀ ch, promptPartA.data.getLast? = some ch → ch ∉ ('<' :: pt) := by
    intro ch hch
    have hA : promptPartA.data.getLast? = some ' ' := by decide
    rw [hA] at hch
    injection hch with h'
    exact h' ▸ hsp
  have hlastB : ∀ ch, promptPartB.data.getLast? = some ch → ch ∉ ('<' :: pt) := by
    intro ch hch
    have hB : promptPartB.data.getLast? = some ' ' := by decide
    rw [hB] at hch
    injection hch with h'
    exact h' ▸ hsp
  have hlastC : ∀ ch, promptPartC.data.getLast? = some ch → ch ∉ ('<' :: pt) := by
    intro ch hch
    have hC : promptPartC.data.getLast? = some ' ' := by decide
    rw [hC] at hch
    injection hch with h'
    exact h' ▸ hsp
  rw [hdata,
      countOccs_append_left _ hp promptPartA.data _ (by decide) hlastA,
      countOccs_append_skip '<' pt h.data _ hh,
      countOccs_append_left _ hp promptPartB.data _ (by decide) hlastB,
      countOccs_append_skip '<' pt c.data _ hc,
      countOccs_append_left _ hp promptPartC.data _ (by decide) hlastC,
      countOccs_append_skip '<' pt q.data _ hq]
  omega

lemma qcssResult_eq (st : SessionState) (o : Oracles) (q sname : String)
    (md : List ServiceDescriptor) (rows : List (String → String))
    (hmd : st.service_metadata = some md)
    (hsearch : o.search sname q st.num_retrieved_chunks = some rows) :
    qcssResult st o q sname =
      match (md.filter (fun s => pyLower s.name == pyLower sname)).map
          (fun s => s.search_column) with
      | [] => Except.error (PErr.valueError
                ("Search service '" ++ sname ++ "' not found in service metadata."))
      | search_col :: _ => Except.ok (buildContext rows search_col) := by
  unfold qcssResult
  rw [hsearch, hmd]

lemma complete_calls (o : Oracles) (m p : String) :
    (complete o m p).1 = [Call.complete m p] := by
  unfold complete
  cases o.complete m p <;> rfl

lemma qcss_trace (st : SessionState) (o : Oracles) (q : String) :
    (query_cortex_search_service st o q).2.1 =
      [Call.search (if classify_prompt q = "structured" then STRUCTURED_SERVICE
        else UNSTRUCTURED_SERVICE) q st.num_retrieved_chunks] := rfl

lemma create_prompt_state_fields (st : SessionState) (o : Oracles) (q : String) :
    (create_prompt st o q).1.messages = st.messages ∧
    (create_prompt st o q).1.model_name = st.model_name ∧
    (create_prompt st o q).1.num_retrieved_chunks = st.num_retrieved_chunks := by
  simp only [create_prompt]
  by_cases h1 : st.use_chat_history = true
  · simp only [h1, if_true]
    by_cases h2 : get_chat_history st ≠ []
    · rw [if_pos h2]
      rcases hms : make_chat_history_summary st o (get_chat_history st) q with ⟨calls1, r1⟩
      cases r1 with
      | error e => exact ⟨rfl, rfl, rfl⟩
      | ok qs => simp [query_cortex_search_service]
    · rw [if_neg h2]
      simp [query_cortex_search_service]
  · simp only [h1, if_false, Bool.false_eq_true]
    simp [query_cortex_search_service]

lemma create_prompt_ok_shape (st : SessionState) (o : Oracles) (q p : String)
    (hok : (create_prompt st o q).2.2 = Except.ok p) :
    ∃ hist ctx, p = promptTemplate hist ctx q := by
  revert hok
  simp only [create_prompt]
  by_cases h1 : st.use_chat_history = true
  · simp only [h1, if_true]
    by_cases h2 : get_chat_history st ≠ []
    · rw [if_pos h2]
      rcases hms : make_chat_history_summary st o (get_chat_history st) q with ⟨calls1, r1⟩
      cases r1 with
      | error e => intro hok; simp at hok
      | ok qs =>
          simp only [query_cortex_search_service]
          cases hq2 : qcssResult st o qs (if classify_prompt qs = "structured" then
              STRUCTURED_SERVICE else UNSTRUCTURED_SERVICE) with
          | error e => intro hok; simp [hq2, Except.map] at hok
          | ok ctx =>
              intro hok
              simp [hq2, Except.map] at hok
              exact ⟨reprMessages (get_chat_history st), ctx, hok.symm⟩
    · rw [if_neg h2]
      simp only [query_cortex_search_service]
      cases hq2 : qcssResult st o q (if classify_prompt q = "structured" then
          STRUCTURED_SERVICE else UNSTRUCTURED_SERVICE) with
      | error e => intro hok; simp [hq2, Except.map] at hok
      | ok ctx =>
          intro hok
          simp [hq2, Except.map] at hok
          exact ⟨reprMessages (get_chat_history st), ctx, hok.symm⟩
  · simp only [h1, if_false, Bool.false_eq_true]
    simp only [query_cortex_search_service]
    cases hq2 : qcssResult st o q (if classify_prompt q = "structured" then
        STRUCTURED_SERVICE else UNSTRUCTURED_SERVICE) with
    | error e => intro hok; simp [hq2, Except.map] at hok
    | ok ctx =>
        intro hok
        simp [hq2, Except.map] at hok
        exact ⟨"", ctx, hok.symm⟩

lemma create_prompt_trace_off (st : SessionState) (o : Oracles) (q : String)
    (h1 : st.use_chat_history = false) :
    (create_prompt st o q).2.1 =
      [Call.search (if classify_prompt q = "structured" then STRUCTURED_SERVICE
        else UNSTRUCTURED_SERVICE) q st.num_retrieved_chunks] := by
  simp only [create_prompt, h1, if_false, Bool.false_eq_true]
  simp [query_cortex_search_service]

lemma create_prompt_trace_empty (st : SessionState) (o : Oracles) (q : String)
    (h1 : st.use_chat_history = true) (h2 : get_chat_history st = []) :
    (create_prompt st o q).2.1 =
      [Call.search (if classify_prompt q = "structured" then STRUCTURED_SERVICE
        else UNSTRUCTURED_SERVICE) q st.num_retrieved_chunks] := by
  simp only [create_prompt, h1, if_true]
  rw [if_neg (by simp [h2])]
  simp [query_cortex_search_service]

lemma create_prompt_trace_on (st : SessionState) (o : Oracles) (q : String)
    (h1 : st.use_chat_history = true) (h2 : get_chat_history st ≠ []) :
    ∃ rest, (create_prompt st o q).2.1 =
      Call.complete st.model_name
        (summaryTemplate (reprMessages (get_chat_history st)) q) :: rest ∧
      ∀ cl ∈ rest, ∃ sn sq sl, cl = Call.search sn sq sl := by
  simp only [create_prompt, h1, if_true]
  rw [if_pos h2]
  rcases hms : make_chat_history_summary st o (get_chat_history st) q with ⟨calls1, r1⟩
  have hcalls : calls1 =
      [Call.complete st.model_name (summaryTemplate (reprMessages (get_chat_history st)) q)] := by
    have hcc := complete_calls o st.model_name
      (summaryTemplate (reprMessages (get_chat_history st)) q)
    rw [show make_chat_history_summary st o (get_chat_history st) q =
        complete o st.model_name (summaryTemplate (reprMessages (get_chat_history st)) q)
      from rfl] at hms
    rw [hms] at hcc
    exact hcc
  cases r1 with
  | error e =>
      refine ⟨[], ?_, by simp⟩
      simp [hcalls]
  | ok qs =>
      refine ⟨[Call.search (if classify_prompt qs = "structured" then STRUCTURED_SERVICE
        else UNSTRUCTURED_SERVICE) qs st.num_retrieved_chunks], ?_, ?_⟩
      · simp [query_cortex_search_service, hcalls]
      · intro cl hcl
        simp at hcl
        exact ⟨_, _, _, hcl⟩

lemma handleQuestion_log_ok (st : SessionState) (o : Oracles) (q resp : String)
    (h : (handleQuestion st o q).2.2 = Except.ok resp) :
    (handleQuestion st o q).1.messages =
      st.messages ++ [Message.mk "user" q, Message.mk "assistant" resp] := by
  have hf := (create_prompt_state_fields
    { st with messages := st.messages ++ [Message.mk "user" q] } o (removeApostrophes q)).1
  simp only [handleQuestion] at h ⊢
  generalize hcp : create_prompt { st with messages := st.messages ++ [Message.mk "user" q] } o
    (removeApostrophes q) = res1 at h hf ⊢
  obtain ⟨st2, calls1, r1⟩ := res1
  dsimp only at h hf ⊢
  cases r1 with
  | error e => simp at h
  | ok prompt =>
      dsimp only at h ⊢
      generalize hcc : complete o st2.model_name prompt = res2 at h ⊢
      obtain ⟨calls2, r2⟩ := res2
      dsimp only at h ⊢
      cases r2 with
      | error e => simp at h
      | ok gen =>
          dsimp only at h ⊢
          have hge : gen = resp := by simpa using h
          subst hge
          simp [hf]

lemma handleQuestion_log_err (st : SessionState) (o : Oracles) (q : String) (e : PErr)
    (h : (handleQuestion st o q).2.2 = Except.error e) :
    (handleQuestion st o q).1.messages = st.messages ++ [Message.mk "user" q] := by
  have hf := (create_prompt_state_fields
    { st with messages := st.messages ++ [Message.mk "user" q] } o (removeApostrophes q)).1
  simp only [handleQuestion] at h ⊢
  generalize hcp : create_prompt { st with messages := st.messages ++ [Message.mk "user" q] } o
    (removeApostrophes q) = res1 at h hf ⊢
  obtain ⟨st2, calls1, r1⟩ := res1
  dsimp only at h hf ⊢
  cases r1 with
  | error e2 => simpa using hf
  | ok prompt =>
      dsimp only at h ⊢
      generalize hcc : complete o st2.model_name prompt = res2 at h ⊢
      obtain ⟨calls2, r2⟩ := res2
      dsimp only at h ⊢
      cases r2 with
      | error e2 => simpa using hf
      | ok gen => simp at h

lemma handleQuestion_final_call (st : SessionState) (o : Oracles) (q resp : String)
    (h : (handleQuestion st o q).2.2 = Except.ok resp) :
    ∃ hist ctx, Call.complete st.model_name
      (promptTemplate hist ctx (removeApostrophes q)) ∈ (handleQuestion st o q).2.1 := by
  have hf := (create_prompt_state_fields
    { st with messages := st.messages ++ [Message.mk "user" q] } o (removeApostrophes q)).2.1
  simp only [handleQuestion] at h ⊢
  generalize hcp : create_prompt { st with messages := st.messages ++ [Message.mk "user" q] } o
    (removeApostrophes q) = res1 at h hf ⊢
  obtain ⟨st2, calls1, r1⟩ := res1
  dsimp only at h hf ⊢
  cases r1 with
  | error e => simp at h
  | ok prompt =>
      dsimp only at h ⊢
      obtain ⟨hist, ctx, hp⟩ := create_prompt_ok_shape
        { st with messages := st.messages ++ [Message.mk "user" q] } o (removeApostrophes q)
        prompt (by rw [hcp])
      have hmod : st2.model_name = st.model_name := hf
      generalize hcc : complete o st2.model_name prompt = res2 at h ⊢
      obtain ⟨calls2, r2⟩ := res2
      have hc2 : calls2 = [Call.complete st2.model_name prompt] := by
        have := complete_calls o st2.model_name prompt
        rw [hcc] at this
        exact this
      dsimp only at h ⊢
      cases r2 with
      | error e => simp at h
      | ok gen =>
          dsimp only
          refine ⟨hist, ctx, ?_⟩
          rw [hc2, ← hmod, ← hp]
          exact List.mem_append_right _ (List.mem_cons_self _ _)

lemma handleQuestion_search_raw (st : SessionState) (o : Oracles) (q : String)
    (h1 : st.use_chat_history = false) :
    Call.search (if classify_prompt (removeApostrophes q) = "structured" then STRUCTURED_SERVICE
      else UNSTRUCTURED_SERVICE) (removeApostrophes q) st.num_retrieved_chunks ∈
      (handleQuestion st o q).2.1 := by
  have htr := create_prompt_trace_off
    { st with messages := st.messages ++ [Message.mk "user" q] } o (removeApostrophes q) h1
  simp only [handleQuestion]
  generalize hcp : create_prompt { st with messages := st.messages ++ [Message.mk "user" q] } o
    (removeApostrophes q) = res1 at htr ⊢
  obtain ⟨st2, calls1, r1⟩ := res1
  dsimp only at htr ⊢
  cases r1 with
  | error e => rw [htr]; exact List.mem_cons_self _ _
  | ok prompt =>
      dsimp only
      generalize complete o st2.model_name prompt = res2
      obtain ⟨calls2, r2⟩ := res2
      cases r2 with
      | error e =>
          dsimp only
          rw [htr]
          exact List.mem_append_left _ (List.mem_cons_self _ _)
      | ok gen =>
          dsimp only
          rw [htr]
          exact List.mem_append_left _ (List.mem_cons_self _ _)

lemma handleQuestion_summary_call (st : SessionState) (o : Oracles) (q : String)
    (h1 : st.use_chat_history = true)
    (h2 : get_chat_history { st with messages := st.messages ++ [Message.mk "user" q] } ≠ []) :
    Call.complete st.model_name
      (summaryTemplate (reprMessages (get_chat_history
        { st with messages := st.messages ++ [Message.mk "user" q] }))
        (removeApostrophes q)) ∈ (handleQuestion st o q).2.1 := by
  obtain ⟨rest, htr, _⟩ := create_prompt_trace_on
    { st with messages := st.messages ++ [Message.mk "user" q] } o (removeApostrophes q) h1 h2
  simp only [handleQuestion]
  generalize hcp : create_prompt { st with messages := st.messages ++ [Message.mk "user" q] } o
    (removeApostrophes q) = res1 at htr ⊢
  obtain ⟨st2, calls1, r1⟩ := res1
  dsimp only at htr ⊢
  cases r1 with
  | error e => rw [htr]; exact List.mem_cons_self _ _
  | ok prompt =>
      dsimp only
      generalize complete o st2.model_name prompt = res2
      obtain ⟨calls2, r2⟩ := res2
      cases r2 with
      | error e =>
          dsimp only
          rw [htr]
          exact List.mem_append_left _ (List.mem_cons_self _ _)
      | ok gen =>
          dsimp only
          rw [htr]
          exact List.mem_append_left _ (List.mem_cons_self _ _)

lemma handleQuestion_search_raw_empty (st : SessionState) (o : Oracles) (q : String)
    (h1 : st.use_chat_history = true)
    (h2 : get_chat_history { st with messages := st.messages ++ [Message.mk "user" q] } = []) :
    Call.search (if classify_prompt (removeApostrophes q) = "structured" then STRUCTURED_SERVICE
      else UNSTRUCTURED_SERVICE) (removeApostrophes q) st.num_retrieved_chunks ∈
      (handleQuestion st o q).2.1 := by
  have htr := create_prompt_trace_empty
    { st with messages := st.messages ++ [Message.mk "user" q] } o (removeApostrophes q) h1 h2
  simp only [handleQuestion]
  generalize hcp : create_prompt { st with messages := st.messages ++ [Message.mk "user" q] } o
    (removeApostrophes q) = res1 at htr ⊢
  obtain ⟨st2, calls1, r1⟩ := res1
  dsimp only at htr ⊢
  cases r1 with
  | error e => rw [htr]; exact List.mem_cons_self _ _
  | ok prompt =>
      dsimp only
      generalize complete o st2.model_name prompt = res2
      obtain ⟨calls2, r2⟩ := res2
      cases r2 with
      | error e =>
          dsimp only
          rw [htr]
          exact List.mem_append_left _ (List.mem_cons_self _ _)
      | ok gen =>
          dsimp only
          rw [htr]
          exact List.mem_append_left _ (List.mem_cons_self _ _)

/-- C1 counterexample: starting from an empty log with a working search
backend but a failing completion service, the turn errors out and the log is
not what it was before the turn — the user message has already been
appended, a partial append the claim forbids. -/
theorem turn_log_counterexample :
    (handleQuestion stNoHist failOracle "hi").2.2 = Except.error PErr.backendUnavailable ∧
    (handleQuestion stNoHist failOracle "hi").1.messages ≠ stNoHist.messages ∧
    (handleQuestion stNoHist failOracle "hi").1.messages =
      stNoHist.messages ++ [Message.mk "user" "hi"] := by
  refine ⟨rfl, ?_, rfl⟩
  decide

/-- C1 (amended): in every turn the user message is appended as soon as the
question is received; the assistant reply is appended, after it, only when
the whole pipeline succeeds; on any failure the log is the pre-turn log plus
exactly the user message. -/
theorem turn_log_discipline (st : SessionState) (o : Oracles) (q : String) :
    (handleQuestion st o q).1.messages =
      st.messages ++ Message.mk "user" q ::
        (match (handleQuestion st o q).2.2 with
         | Except.ok r => [Message.mk "assistant" r]
         | Except.error _ => []) := by
  cases hr : (handleQuestion st o q).2.2 with
  | error e => rw [handleQuestion_log_err st o q e hr]
  | ok resp => rw [handleQuestion_log_ok st o q resp hr]

/-- C3 counterexample: with 7 prior messages plus the just-appended question
in the log and a history window of 5, `get_chat_history` returns the 4 most
recent prior messages, not the 5 the claim states. -/
theorem chat_history_window_counterexample :
    get_chat_history { baseState with messages :=
      [Message.mk "user" "m1", Message.mk "assistant" "m2", Message.mk "user" "m3",
       Message.mk "assistant" "m4", Message.mk "user" "m5", Message.mk "assistant" "m6",
       Message.mk "user" "m7", Message.mk "user" "q8"] } =
      [Message.mk "assistant" "m4", Message.mk "user" "m5", Message.mk "assistant" "m6",
       Message.mk "user" "m7"] ∧
    get_chat_history { baseState with messages :=
      [Message.mk "user" "m1", Message.mk "assistant" "m2", Message.mk "user" "m3",
       Message.mk "assistant" "m4", Message.mk "user" "m5", Message.mk "assistant" "m6",
       Message.mk "user" "m7", Message.mk "user" "q8"] } ≠
      [Message.mk "user" "m3", Message.mk "assistant" "m4", Message.mk "user" "m5",
       Message.mk "assistant" "m6", Message.mk "user" "m7"] := by
  exact ⟨rfl, by decide⟩

/-- C3 (amended): with the log equal to the prior messages plus the
just-appended question, the controller passes to the summariser exactly the
last `min(window - 1, prior)` prior messages — the window is computed over a
length that already includes the question, so one fewer prior message than
the window size is passed. -/
theorem chat_history_window_amended (st : SessionState) (prior : List Message) (qm : Message)
    (hmsg : st.messages = prior ++ [qm]) :
    get_chat_history st = prior.drop (prior.length + 1 - st.num_chat_messages) := by
  unfold get_chat_history
  rw [hmsg]
  simp [Nat.zero_max, List.take_left]

/-- Witness for C3 (amended): two prior messages, window 5 — both prior
messages are passed. -/
theorem chat_history_window_amended_witness :
    get_chat_history { baseState with messages :=
      [Message.mk "user" "u1", Message.mk "assistant" "a1", Message.mk "user" "q2"] } =
      [Message.mk "user" "u1", Message.mk "assistant" "a1"] := by
  have h := chat_history_window_amended
    { baseState with messages :=
      [Message.mk "user" "u1", Message.mk "assistant" "a1", Message.mk "user" "q2"] }
    [Message.mk "user" "u1", Message.mk "assistant" "a1"] (Message.mk "user" "q2") rfl
  rw [h]
  decide

/-- C4: under a successful platform search, the search operation raises the
`ValueError` "backend not found" exactly when the selected service name is
absent (case-insensitively) from the discovered descriptor set, and returns
a context string exactly when it is present — never a silent empty result
for an absent backend. -/
theorem backend_not_found (st : SessionState) (o : Oracles) (q svc : String)
    (md : List ServiceDescriptor) (rows : List (String → String))
    (hsvc : svc = if classify_prompt q = "structured" then STRUCTURED_SERVICE
      else UNSTRUCTURED_SERVICE)
    (hmd : st.service_metadata = some md)
    (hsearch : o.search svc q st.num_retrieved_chunks = some rows) :
    ((query_cortex_search_service st o q).2.2 =
        Except.error (PErr.valueError
          ("Search service '" ++ svc ++ "' not found in service metadata.")) ↔
      ¬ ∃ d ∈ md, pyLower d.name = pyLower svc) ∧
    ((∃ ctx, (query_cortex_search_service st o q).2.2 = Except.ok ctx) ↔
      ∃ d ∈ md, pyLower d.name = pyLower svc) := by
  subst hsvc
  rw [show (query_cortex_search_service st o q).2.2 =
      qcssResult st o q (if classify_prompt q = "structured" then STRUCTURED_SERVICE
        else UNSTRUCTURED_SERVICE) from rfl,
      qcssResult_eq st o q _ md rows hmd hsearch]
  cases hfl : (md.filter (fun s => pyLower s.name ==
      pyLower (if classify_prompt q = "structured" then STRUCTURED_SERVICE
        else UNSTRUCTURED_SERVICE))).map (fun s => s.search_column) with
  | nil =>
      have hall : ∀ d ∈ md, ¬ pyLower d.name =
          pyLower (if classify_prompt q = "structured" then STRUCTURED_SERVICE
            else UNSTRUCTURED_SERVICE) := by
        intro d hd heq
        have hf := List.filter_eq_nil_iff.mp (List.map_eq_nil_iff.mp hfl) d hd
        exact hf (by simpa using heq)
      constructor
      · constructor
        · rintro _ ⟨d, hd, he⟩
          exact hall d hd he
        · intro _; rfl
      · constructor
        · rintro ⟨ctx, hc⟩
          exact Except.noConfusion hc
        · rintro ⟨d, hd, he⟩
          exact absurd he (hall d hd)
  | cons col rest =>
      have hex : ∃ d ∈ md, pyLower d.name =
          pyLower (if classify_prompt q = "structured" then STRUCTURED_SERVICE
            else UNSTRUCTURED_SERVICE) := by
        cases hl : md.filter (fun s => pyLower s.name ==
            pyLower (if classify_prompt q = "structured" then STRUCTURED_SERVICE
              else UNSTRUCTURED_SERVICE)) with
        | nil => rw [hl] at hfl; simp at hfl
        | cons d ds =>
            have hdm : d ∈ md.filter (fun s => pyLower s.name ==
                pyLower (if classify_prompt q = "structured" then STRUCTURED_SERVICE
                  else UNSTRUCTURED_SERVICE)) := by
              rw [hl]; exact List.mem_cons_self d ds
            have hmf := List.mem_filter.mp hdm
            exact ⟨d, hmf.1, by simpa using hmf.2⟩
      constructor
      · constructor
        · intro habs
          exact Except.noConfusion habs
        · intro hne
          exact absurd hex hne
      · exact ⟨fun _ => hex, fun _ => ⟨buildContext rows col, rfl⟩⟩

/-- Witness for C4: a descriptor set holding only `other_service` makes the
search operation raise the backend-not-found `ValueError`. -/
theorem backend_not_found_witness :
    (query_cortex_search_service
        { baseState with
          service_metadata := some [{ name := "other_service", search_column := "col" }] }
        okOracle "hello").2.2 =
      Except.error (PErr.valueError
        ("Search service '" ++ (if classify_prompt "hello" = "structured" then STRUCTURED_SERVICE
          else UNSTRUCTURED_SERVICE) ++ "' not found in service metadata.")) := by
  exact (backend_not_found
    { baseState with service_metadata := some [{ name := "other_service", search_column := "col" }] }
    okOracle "hello"
    (if classify_prompt "hello" = "structured" then STRUCTURED_SERVICE else UNSTRUCTURED_SERVICE)
    [{ name := "other_service", search_column := "col" }] [] rfl rfl rfl).1.mpr (by decide)

/-- C6 counterexample: with history use enabled, a non-empty prior history
of two messages, and a history window of 1, the summariser is never invoked
— its completion call does not appear in the trace — contradicting the
claimed "invoked exactly when enabled and prior history non-empty". -/
theorem summariser_invocation_counterexample :
    ({ baseState with num_chat_messages := 1, messages :=
        [Message.mk "user" "u1", Message.mk "assistant" "a1", Message.mk "user" "q2"]
      } : SessionState).use_chat_history = true ∧
    ({ baseState with num_chat_messages := 1, messages :=
        [Message.mk "user" "u1", Message.mk "assistant" "a1", Message.mk "user" "q2"]
      } : SessionState).messages =
      [Message.mk "user" "u1", Message.mk "assistant" "a1"] ++ [Message.mk "user" "q2"] ∧
    ([Message.mk "user" "u1", Message.mk "assistant" "a1"] ≠ ([] : List Message)) ∧
    ¬ ∃ m p, Call.complete m p ∈
      (create_prompt { baseState with num_chat_messages := 1, messages :=
        [Message.mk "user" "u1", Message.mk "assistant" "a1", Message.mk "user" "q2"] }
        okOracle "next").2.1 := by
  refine ⟨rfl, rfl, by simp, ?_⟩
  rintro ⟨m, p, hm⟩
  have htr : (create_prompt { baseState with num_chat_messages := 1, messages :=
      [Message.mk "user" "u1", Message.mk "assistant" "a1", Message.mk "user" "q2"] }
      okOracle "next").2.1 = [Call.search "prospectus_service" "next" 5] := rfl
  rw [htr] at hm
  simp at hm

/-- C6 (amended): the summariser's completion call appears in the trace of
`create_prompt` exactly when history use is enabled and the windowed history
`get_chat_history` — the last `window - 1` prior messages — is non-empty
(so, for a log `prior ++ [question]`, exactly when the window is at least 2
and `prior` is non-empty); when history use is disabled the single recorded
call is the retrieval of the raw question. -/
theorem summariser_invocation_amended (st : SessionState) (o : Oracles) (q : String) :
    ((∃ m p, Call.complete m p ∈ (create_prompt st o q).2.1) ↔
      (st.use_chat_history = true ∧ get_chat_history st ≠ [])) ∧
    (st.use_chat_history = false →
      (create_prompt st o q).2.1 =
        [Call.search (if classify_prompt q = "structured" then STRUCTURED_SERVICE
          else UNSTRUCTURED_SERVICE) q st.num_retrieved_chunks]) := by
  constructor
  · constructor
    · rintro ⟨m, p, hm⟩
      by_cases h1 : st.use_chat_history = true
      · by_cases h2 : get_chat_history st ≠ []
        · exact ⟨h1, h2⟩
        · exfalso
          rw [create_prompt_trace_empty st o q h1 (not_not.mp h2)] at hm
          simp at hm
      · exfalso
        rw [create_prompt_trace_off st o q (by simpa using h1)] at hm
        simp at hm
    · rintro ⟨h1, h2⟩
      obtain ⟨rest, htr, _⟩ := create_prompt_trace_on st o q h1 h2
      exact ⟨_, _, by rw [htr]; exact List.mem_cons_self _ _⟩
  · intro h1
    exact create_prompt_trace_off st o q h1

/-- Witness for C6 (amended): with history use disabled the trace of
`create_prompt` is the single retrieval call on the raw question. -/
theorem summariser_invocation_amended_witness :
    (create_prompt stNoHist okOracle "hi").2.1 =
      [Call.search (if classify_prompt "hi" = "structured" then STRUCTURED_SERVICE
        else UNSTRUCTURED_SERVICE) "hi" stNoHist.num_retrieved_chunks] := by
  exact (summariser_invocation_amended stNoHist okOracle "hi").2 rfl

/-- C7: whenever `create_prompt` succeeds, the produced prompt has the
original question in its question slot — the rewritten query, when one was
produced, is used only as the retrieval query and never replaces the
question in the final prompt. -/
theorem question_slot_original (st : SessionState) (o : Oracles) (q p : String)
    (hok : (create_prompt st o q).2.2 = Except.ok p) :
    ∃ hist ctx, p = promptTemplate hist ctx q :=
  create_prompt_ok_shape st o q p hok

/-- Witness for C7: a concrete successful run whose final prompt embeds the
submitted question. -/
theorem question_slot_original_witness :
    ∃ hist ctx, (create_prompt stNoHist okOracle "what").2.2 =
      Except.ok (promptTemplate hist ctx "what") := by
  obtain ⟨hist, ctx, hp⟩ := question_slot_original stNoHist okOracle "what"
    (promptTemplate "" "" "what") rfl
  refine ⟨hist, ctx, ?_⟩
  rw [← hp]
  rfl

lemma take_len_succ_append (l : List Message) (x : Message) (t : List Message) :
    (l ++ x :: t).take (l.length + 1) = l ++ [x] := by
  rw [List.take_append_eq_append_take,
      List.take_of_length_le (by omega),
      show l.length + 1 - l.length = 1 by omega,
      List.take_succ_cons, List.take_zero]

/-- C5 counterexample: already at empty history, context and question slots
the built prompt contains the literal `<context>` tag twice — once in the
instruction prose and once as the actual section delimiter — so it does not
contain exactly one context-section marker. -/
theorem prompt_sections_counterexample :
    countOccs "<context>".data (promptTemplate "" "" "").data = 2 ∧
    ¬ countOccs "<context>".data (promptTemplate "" "" "").data = 1 := by
  constructor <;> decide

/-- C5 (amended): for slot values free of the `<` character, the built
prompt contains exactly one question section (each question tag occurring
once), exactly two occurrences of each history and context tag — one in the
instruction prose describing the mechanism and one delimiting the actual
section — together with, verbatim, the fixed fallback directive sentence,
the directive to answer only from the given context and chat history, and
the directive never to mention the context mechanism. -/
theorem prompt_sections_amended (h c q : String)
    (hh : ('<' : Char) ∉ h.data) (hc : ('<' : Char) ∉ c.data)
    (hq : ('<' : Char) ∉ q.data) :
    countOccs "<question>".data (promptTemplate h c q).data = 1 ∧
    countOccs "</question>".data (promptTemplate h c q).data = 1 ∧
    countOccs "<chat_history>".data (promptTemplate h c q).data = 2 ∧
    countOccs "</chat_history>".data (promptTemplate h c q).data = 2 ∧
    countOccs "<context>".data (promptTemplate h c q).data = 2 ∧
    countOccs "</context>".data (promptTemplate h c q).data = 2 ∧
    fallbackSentence.data <:+: (promptTemplate h c q).data ∧
    answerFromContextDirective.data <:+: (promptTemplate h c q).data ∧
    noMechanismMention.data <:+: (promptTemplate h c q).data := by
  have key : ∀ pt : List Char, (' ' : Char) ∉ ('<' :: pt) →
      countOccs ('<' :: pt) (promptTemplate h c q).data =
        countOccs ('<' :: pt) promptPartA.data + countOccs ('<' :: pt) promptPartB.data +
        countOccs ('<' :: pt) promptPartC.data + countOccs ('<' :: pt) promptPartD.data :=
    fun pt hsp => countOccs_prompt_parts pt hsp h c q hh hc hq
  have hpartA : promptPartA.data <+: (promptTemplate h c q).data :=
    ⟨(h ++ (promptPartB ++ (c ++ (promptPartC ++ (q ++ promptPartD))))).data, by
      simp [promptTemplate, String.data_append, List.append_assoc]⟩
  refine ⟨?_, ?_, ?_, ?_, ?_, ?_, ?_, ?_, ?_⟩
  · calc countOccs "<question>".data (promptTemplate h c q).data
        = countOccs ('<' :: "question>".data) (promptTemplate h c q).data := rfl
      _ = _ := key "question>".data (by decide)
      _ = 1 := by decide
  · calc countOccs "</question>".data (promptTemplate h c q).data
        = countOccs ('<' :: "/question>".data) (promptTemplate h c q).data := rfl
      _ = _ := key "/question>".data (by decide)
      _ = 1 := by decide
  · calc countOccs "<chat_history>".data (promptTemplate h c q).data
        = countOccs ('<' :: "chat_history>".data) (promptTemplate h c q).data := rfl
      _ = _ := key "chat_history>".data (by decide)
      _ = 2 := by decide
  · calc countOccs "</chat_history>".data (promptTemplate h c q).data
        = countOccs ('<' :: "/chat_history>".data) (promptTemplate h c q).data := rfl
      _ = _ := key "/chat_history>".data (by decide)
      _ = 2 := by decide
  · calc countOccs "<context>".data (promptTemplate h c q).data
        = countOccs ('<' :: "context>".data) (promptTemplate h c q).data := rfl
      _ = _ := key "context>".data (by decide)
      _ = 2 := by decide
  · calc countOccs "</context>".data (promptTemplate h c q).data
        = countOccs ('<' :: "/context>".data) (promptTemplate h c q).data := rfl
      _ = _ := key "/context>".data (by decide)
      _ = 2 := by decide
  · have h1 : listContains fallbackSentence.data promptPartA.data = true := by decide
    exact ((listContains_iff _ _).mp h1).trans hpartA.isInfix
  · have h1 : listContains answerFromContextDirective.data promptPartA.data = true := by decide
    exact ((listContains_iff _ _).mp h1).trans hpartA.isInfix
  · have h1 : listContains noMechanismMention.data promptPartA.data = true := by decide
    exact ((listContains_iff _ _).mp h1).trans hpartA.isInfix

/-- Witness for C5 (amended): concrete tag-free slot values. -/
theorem prompt_sections_amended_witness :
    countOccs "<question>".data (promptTemplate "[]" "some context" "hello").data = 1 ∧
    countOccs "</question>".data (promptTemplate "[]" "some context" "hello").data = 1 ∧
    countOccs "<chat_history>".data (promptTemplate "[]" "some context" "hello").data = 2 ∧
    countOccs "</chat_history>".data (promptTemplate "[]" "some context" "hello").data = 2 ∧
    countOccs "<context>".data (promptTemplate "[]" "some context" "hello").data = 2 ∧
    countOccs "</context>".data (promptTemplate "[]" "some context" "hello").data = 2 ∧
    fallbackSentence.data <:+: (promptTemplate "[]" "some context" "hello").data ∧
    answerFromContextDirective.data <:+: (promptTemplate "[]" "some context" "hello").data ∧
    noMechanismMention.data <:+: (promptTemplate "[]" "some context" "hello").data :=
  prompt_sections_amended "[]" "some context" "hello" (by decide) (by decide) (by decide)

/-- C8: pressing "Clear conversation" empties the log and leaves every
session-configuration field (model, chunk count, history window, history
flag, debug flag) and the discovered descriptor set unchanged; a question
asked right after runs with empty chat history. -/
theorem clear_conversation_frame (st : SessionState)
    (hclear : st.clear_conversation = true) :
    (init_messages st).messages = [] ∧
    (init_messages st).model_name = st.model_name ∧
    (init_messages st).num_retrieved_chunks = st.num_retrieved_chunks ∧
    (init_messages st).num_chat_messages = st.num_chat_messages ∧
    (init_messages st).use_chat_history = st.use_chat_history ∧
    (init_messages st).debug = st.debug ∧
    (init_messages st).service_metadata = st.service_metadata ∧
    ∀ q : String,
      get_chat_history { init_messages st with
        messages := (init_messages st).messages ++ [Message.mk "user" q] } = [] := by
  have him : init_messages st = { st with messages := [], messagesPresent := true } := by
    unfold init_messages
    rw [hclear]
    simp
  rw [him]
  refine ⟨rfl, rfl, rfl, rfl, rfl, rfl, rfl, ?_⟩
  intro q
  unfold get_chat_history
  simp

/-- Witness for C8: clearing a concrete populated session. -/
theorem clear_conversation_frame_witness :
    (init_messages { baseState with clear_conversation := true }).messages = [] ∧
    (init_messages { baseState with clear_conversation := true }).service_metadata =
      ({ baseState with clear_conversation := true } : SessionState).service_metadata ∧
    get_chat_history { init_messages { baseState with clear_conversation := true } with
      messages := (init_messages { baseState with clear_conversation := true }).messages ++
        [Message.mk "user" "hello"] } = [] := by
  obtain ⟨h1, _, _, _, _, _, h7, h8⟩ := clear_conversation_frame
    { baseState with clear_conversation := true } rfl
  exact ⟨h1, h7, h8 "hello"⟩

/-- C9: backend discovery is idempotent: with the descriptor set already
populated the initializer returns the session state unchanged and performs
no platform query (empty call trace), and running the initializer twice
always yields the same session state as running it once. -/
theorem discovery_idempotent (st : SessionState) (o : Oracles) :
    (∀ md, st.service_metadata = some md →
      init_service_metadata st o = (st, [], Except.ok ())) ∧
    (init_service_metadata (init_service_metadata st o).1 o).1 =
      (init_service_metadata st o).1 := by
  constructor
  · intro md hmd
    unfold init_service_metadata
    rw [hmd]
  · cases hs : st.service_metadata with
    | some md =>
        have h1 : init_service_metadata st o = (st, [], Except.ok ()) := by
          unfold init_service_metadata
          rw [hs]
        rw [h1]
        dsimp only
        rw [h1]
    | none =>
        rcases hd : discoverAll o with ⟨calls, r⟩
        cases r with
        | error e =>
            have h1 : init_service_metadata st o = (st, calls, Except.error e) := by
              unfold init_service_metadata
              rw [hs, hd]
            rw [h1]
            dsimp only
            rw [h1]
        | ok metadata =>
            have h1 : init_service_metadata st o =
                ({ st with service_metadata := some metadata },
                 calls, Except.ok ()) := by
              unfold init_service_metadata
              rw [hs, hd]
            have h2 : init_service_metadata
                { st with service_metadata := some metadata } o =
                ({ st with service_metadata := some metadata }, [], Except.ok ()) := by
              unfold init_service_metadata
              rfl
            rw [h1]
            dsimp only
            rw [h2]

/-- Witness for C9: a session with the descriptor set already populated. -/
theorem discovery_idempotent_witness :
    init_service_metadata baseState okOracle = (baseState, [], Except.ok ()) ∧
    (init_service_metadata (init_service_metadata baseState okOracle).1 okOracle).1 =
      (init_service_metadata baseState okOracle).1 :=
  ⟨(discovery_idempotent baseState okOracle).1 _ rfl,
   (discovery_idempotent baseState okOracle).2⟩

/-- C10: the question text the pipeline works with is the raw input with
every apostrophe removed — the summariser, when invoked, receives the
stripped text as its question; whenever the question itself is the
retrieval query (history disabled, or windowed history empty) the recorded
search uses the stripped text; and the final prompt's question slot holds
the stripped text — while the user message appended to the log keeps the
raw input, apostrophes included. -/
theorem apostrophe_handling (st : SessionState) (o : Oracles) (q : String) :
    (handleQuestion st o q).1.messages.take (st.messages.length + 1) =
      st.messages ++ [Message.mk "user" q] ∧
    (∀ resp, (handleQuestion st o q).2.2 = Except.ok resp →
      ∃ hist ctx, Call.complete st.model_name
        (promptTemplate hist ctx (removeApostrophes q)) ∈ (handleQuestion st o q).2.1) ∧
    (st.use_chat_history = true →
      get_chat_history { st with messages := st.messages ++ [Message.mk "user" q] } ≠ [] →
      Call.complete st.model_name
        (summaryTemplate (reprMessages (get_chat_history
          { st with messages := st.messages ++ [Message.mk "user" q] }))
          (removeApostrophes q)) ∈ (handleQuestion st o q).2.1) ∧
    (st.use_chat_history = false ∨
        get_chat_history { st with messages := st.messages ++ [Message.mk "user" q] } = [] →
      Call.search (if classify_prompt (removeApostrophes q) = "structured" then
          STRUCTURED_SERVICE else UNSTRUCTURED_SERVICE)
        (removeApostrophes q) st.num_retrieved_chunks ∈ (handleQuestion st o q).2.1) := by
  refine ⟨?_, ?_, ?_, ?_⟩
  · cases hr : (handleQuestion st o q).2.2 with
    | error e =>
        rw [handleQuestion_log_err st o q e hr]
        exact take_len_succ_append st.messages (Message.mk "user" q) []
    | ok resp =>
        rw [handleQuestion_log_ok st o q resp hr]
        exact take_len_succ_append st.messages (Message.mk "user" q)
          [Message.mk "assistant" resp]
  · intro resp hok
    exact handleQuestion_final_call st o q resp hok
  · intro h1 h2
    exact handleQuestion_summary_call st o q h1 h2
  · intro hcase
    by_cases h1 : st.use_chat_history = true
    · rcases hcase with hfalse | hempty
      · exact absurd h1 (by simp [hfalse])
      · exact handleQuestion_search_raw_empty st o q h1 hempty
    · exact handleQuestion_search_raw st o q (by simpa using h1)

/-- Witness for C10: the question `it's` — at a no-history session the log
keeps the apostrophe while the retrieval and final prompt use the stripped
text, and at a session with one completed prior turn the summariser's
completion call receives the stripped text. -/
theorem apostrophe_handling_witness :
    ((handleQuestion stNoHist okOracle "it's").1.messages.take
        (stNoHist.messages.length + 1) =
      stNoHist.messages ++ [Message.mk "user" "it's"]) ∧
    (∃ hist ctx, Call.complete stNoHist.model_name
      (promptTemplate hist ctx (removeApostrophes "it's")) ∈
        (handleQuestion stNoHist okOracle "it's").2.1) ∧
    (Call.complete stHist.model_name
      (summaryTemplate (reprMessages (get_chat_history
        { stHist with messages := stHist.messages ++ [Message.mk "user" "it's"] }))
        (removeApostrophes "it's")) ∈ (handleQuestion stHist okOracle "it's").2.1) ∧
    Call.search (if classify_prompt (removeApostrophes "it's") = "structured" then
        STRUCTURED_SERVICE else UNSTRUCTURED_SERVICE)
      (removeApostrophes "it's") stNoHist.num_retrieved_chunks ∈
      (handleQuestion stNoHist okOracle "it's").2.1 := by
  obtain ⟨h1, h2, _, h4⟩ := apostrophe_handling stNoHist okOracle "it's"
  obtain ⟨_, _, h3, _⟩ := apostrophe_handling stHist okOracle "it's"
  exact ⟨h1, h2 "a generated answer" rfl, h3 rfl (by decide), h4 (Or.inl rfl)⟩

end SDP

